import Mathlib

/-!
Shallow embedding of the offline documentation search engine in
`src/offline-docs-fetcher.ts` (class `OfflineDocsFetcher`), together with
theorems about its search scoring, result merging, ranking, caching and
path-resolution behaviour.

JavaScript strings are modelled as Lean `String`/`List Char`; JavaScript
numbers that only ever hold integral additive scores are modelled as `Nat`,
and blended relevance scores as `ℚ`.  Fallible operations (regex
compilation, file lookup) are modelled with `Except`.
-/

instance {ε α : Type} [DecidableEq ε] [DecidableEq α] : DecidableEq (Except ε α) := fun a b =>
  match a, b with
  | .ok x, .ok y => if h : x = y then .isTrue (by simp [h]) else .isFalse (by simp [h])
  | .error x, .error y => if h : x = y then .isTrue (by simp [h]) else .isFalse (by simp [h])
  | .ok _, .error _ => .isFalse (by simp)
  | .error _, .ok _ => .isFalse (by simp)

/-- The backtick character (code point 96). -/
def btickChar : Char := Char.ofNat 96

/-- The apostrophe character (code point 39). -/
def aposChar : Char := Char.ofNat 39

/-- The left brace character (code point 123). -/
def lbraceChar : Char := Char.ofNat 123

/-- The right brace character (code point 125). -/
def rbraceChar : Char := Char.ofNat 125

/-- Models `String.prototype.toLowerCase` (char-wise lowering). -/
def lowerS (s : String) : String := String.mk (s.data.map Char.toLower)

/-- JavaScript truthiness for an optional string: `undefined` and `""` are falsy. -/
def truthy : Option String → Bool
  | none => false
  | some s => !(s == "")

/-- Substring test on character lists: does `needle` occur contiguously in `hay`?
Models `hay.includes(needle)`. -/
def strIncl : List Char → List Char → Bool
  | hay, needle =>
    needle.isPrefixOf hay ||
      match hay with
      | [] => false
      | _ :: t => strIncl t needle

/-- Models `hay.includes(needle)` on strings. -/
def includesS (hay needle : String) : Bool := strIncl hay.data needle.data

/-- Helper for `countOccsL`: scans positions left to right; a positive `skip`
jumps over the remainder of a match already counted (non-overlapping matches). -/
def countOccsAux (needle : List Char) : List Char → Nat → Nat
  | [], _ => 0
  | _ :: t, Nat.succ k => countOccsAux needle t k
  | c :: t, 0 =>
    if needle.isPrefixOf (c :: t) then 1 + countOccsAux needle t (needle.length - 1)
    else countOccsAux needle t 0

/-- Count of non-overlapping, leftmost occurrences of `needle` in `hay`.
Models `(hay.match(new RegExp(needle, 'g')) || []).length` for a `needle`
free of regex metacharacters; an empty pattern matches at every position
(JS returns `hay.length + 1` matches). -/
def countOccsL (needle hay : List Char) : Nat :=
  if needle.isEmpty then hay.length + 1 else countOccsAux needle hay 0

/-- String-level occurrence count (see `countOccsL`). -/
def countOccsS (needle hay : String) : Nat := countOccsL needle.data hay.data

/-- Whitespace splitting that drops empty pieces: the non-empty maximal runs of
non-whitespace characters, in order.  Models `s.split(/\s+/)` up to the empty
strings that JS produces at a leading separator (those are removed by the
`length > 1` filter everywhere this is used). -/
def wordsAux (cur : List Char) : List Char → List (List Char)
  | [] => if cur.isEmpty then [] else [cur.reverse]
  | c :: t =>
    if c.isWhitespace then
      if cur.isEmpty then wordsAux [] t else cur.reverse :: wordsAux [] t
    else wordsAux (c :: cur) t

/-- The query words of a string: whitespace-split tokens of length > 1.
Models `s.split(/\s+/).filter(word => word.length > 1)`. -/
def queryWordsOf (s : String) : List String :=
  ((wordsAux [] s.data).filter (fun w => w.length > 1)).map (fun w => String.mk w)

/-- Three backticks, the fence delimiter. -/
def bt3 : List Char := [btickChar, btickChar, btickChar]

/-- The character class `[\\s\\S]` of the source's code-block regex literal
(`/```[\\s\\S]*?```/g`): because the backslashes are doubled inside a regex
literal, the class contains exactly the backslash, `s` and `S`. -/
def blockClassChar (c : Char) : Bool := c == '\\' || c == 's' || c == 'S'

/-- A lazy match of the source's code-block regex starting exactly at the head
of `l`: three backticks, a shortest run of `blockClassChar`s, three backticks.
Returns the matched slice. -/
def blockAt (l : List Char) : Option (List Char) :=
  if bt3.isPrefixOf l then
    let rest := l.drop 3
    let run := rest.takeWhile blockClassChar
    if bt3.isPrefixOf (rest.drop run.length) then some (bt3 ++ run ++ bt3) else none
  else none

/-- Global scan of `content.match(/```[\\s\\S]*?```/g)`: positions are tried
left to right; after a match the scan resumes past it (`skip` counts the
remaining characters of the current match). -/
def scanBlocksAux : List Char → Nat → List (List Char)
  | [], _ => []
  | _ :: t, Nat.succ k => scanBlocksAux t k
  | c :: t, 0 =>
    match blockAt (c :: t) with
    | some b => b :: scanBlocksAux t (b.length - 1)
    | none => scanBlocksAux t 0

/-- All matches of the source's code-block regex, in order (lines 280-281). -/
def scanBlocksL (l : List Char) : List (List Char) := scanBlocksAux l 0

/-- Models `content.replace(/```[\\s\\S]*?```/g, '')` (line 363): the input
with every regex match removed. -/
def stripBlocksAux : List Char → Nat → List Char
  | [], _ => []
  | _ :: t, Nat.succ k => stripBlocksAux t k
  | c :: t, 0 =>
    match blockAt (c :: t) with
    | some b => stripBlocksAux t (b.length - 1)
    | none => c :: stripBlocksAux t 0

/-- String-level block stripping (see `stripBlocksAux`). -/
def stripBlocksS (s : String) : String := String.mk (stripBlocksAux s.data 0)

/-- Shortest proper prefix of `l` ending right before the first occurrence of
three backticks; `none` when `l` contains no fence. -/
def firstBt3 : List Char → Option (List Char)
  | [] => none
  | c :: t =>
    if bt3.isPrefixOf (c :: t) then some []
    else (firstBt3 t).map (fun p => c :: p)

/-- Modelled from the spec (§4.4): a fenced code block delimited by triple
backticks with an arbitrary (lazy, shortest) interior — what the source's
regex was evidently intended to match (`/```[\s\S]*?```/g`). -/
def specBlockAt (l : List Char) : Option (List Char) :=
  if bt3.isPrefixOf l then
    (firstBt3 (l.drop 3)).map (fun inner => bt3 ++ inner ++ bt3)
  else none

/-- Modelled from the spec (§4.4): global scan for fenced code blocks with
arbitrary interiors (cf. `scanBlocksAux`). -/
def specScanBlocksAux : List Char → Nat → List (List Char)
  | [], _ => []
  | _ :: t, Nat.succ k => specScanBlocksAux t k
  | c :: t, 0 =>
    match specBlockAt (c :: t) with
    | some b => b :: specScanBlocksAux t (b.length - 1)
    | none => specScanBlocksAux t 0

/-- Modelled from the spec (§4.4): all fenced code blocks, in order. -/
def specScanBlocksL (l : List Char) : List (List Char) := specScanBlocksAux l 0

/-- Split a character list at every occurrence of `sep` (empty pieces kept). -/
def splitCharAux (sep : Char) (cur : List Char) : List Char → List (List Char)
  | [] => [cur.reverse]
  | c :: t => if c == sep then cur.reverse :: splitCharAux sep [] t else splitCharAux sep (c :: cur) t

/-- Split on a separator character, keeping empty pieces. -/
def splitChar (sep : Char) (l : List Char) : List (List Char) := splitCharAux sep [] l

/-- Brace expansion of a glob pattern (minimatch performs it before
matching): `a{x,y}b` becomes `axb` and `ayb`; an unclosed `{` is literal.
Fuel-driven structural recursion; `expandBraces` supplies enough fuel. -/
def expandBracesFuel : Nat → List Char → List (List Char)
  | 0, l => [l]
  | _ + 1, [] => [[]]
  | f + 1, c :: t =>
    if c == lbraceChar then
      let body := t.takeWhile (fun x => !(x == rbraceChar))
      let rest := t.dropWhile (fun x => !(x == rbraceChar))
      match rest with
      | [] => (expandBracesFuel f t).map (fun e => c :: e)
      | _ :: after =>
        (splitChar ',' body).flatMap (fun alt => (expandBracesFuel f after).map (fun e => alt ++ e))
    else (expandBracesFuel f t).map (fun e => c :: e)

/-- All brace-free alternatives of a glob pattern. -/
def expandBraces (l : List Char) : List (List Char) := expandBracesFuel l.length l

/-- Match one glob path segment: `*` matches any run of characters (not
crossing a separator), other characters match literally. -/
def segMatch : List Char → List Char → Bool
  | [], s => s.isEmpty
  | c :: pt, s =>
    if c == '*' then (s.tails).any (fun suf => segMatch pt suf)
    else
      match s with
      | [] => false
      | d :: st => c == d && segMatch pt st

/-- Match a list of glob pattern segments against path segments: a `**`
segment matches zero or more whole segments. -/
def matchSegsL : List (List Char) → List (List Char) → Bool
  | [], segs => segs.isEmpty
  | p :: ps, segs =>
    if p = ['*', '*'] then (segs.tails).any (fun suf => matchSegsL ps suf)
    else
      match segs with
      | [] => false
      | s :: t => segMatch p s && matchSegsL ps t

/-- Glob matching of a pattern against a slash-separated relative path, with
brace expansion, `*` and `**`.  A pattern with a leading `/` yields an empty
first pattern segment, which no relative path segment can match — node's
`glob` treats such patterns as absolute, so they match no path inside `cwd`. -/
def globMatch (pattern path : String) : Bool :=
  (expandBraces pattern.data).any
    (fun pc => matchSegsL (splitChar '/' pc) (splitChar '/' path.data))

/-- An indexed document (interface `IndexedDocument`, lines 29-36); the
front-matter metadata is represented by the one field the search logic
reads, `description`. -/
structure IndexedDocument where
  path : String
  title : String
  content : String
  «section» : Option String
  version : Option String
  description : Option String
deriving DecidableEq

/-- A search result (interface `SearchResult`, lines 20-27). -/
structure SearchResult where
  path : String
  title : String
  excerpt : String
  «section» : Option String
  version : Option String
  score : ℚ
deriving DecidableEq

/-- Model of the external JavaScript `RegExp` constructor with the `g` flag:
compilation can raise `SyntaxError`, a compiled pattern counts its global
matches in a text. -/
structure RegexEngine where
  compile : String → Except String (String → Nat)

/-- ECMAScript regex pattern metacharacters. -/
def regexMetaChar (c : Char) : Bool :=
  c == '\\' || c == '^' || c == '$' || c == '.' || c == '|' || c == '?' || c == '*' ||
    c == '+' || c == '(' || c == ')' || c == '[' || c == ']' || c == lbraceChar || c == rbraceChar

/-- A pattern that is a plain literal: free of regex metacharacters. -/
def isLiteralPattern (p : String) : Bool := !(p.data.any regexMetaChar)

/-- Concrete `RegexEngine`: a literal pattern compiles to the non-overlapping
occurrence counter (what `new RegExp(p, 'g')` computes for such patterns);
patterns containing metacharacters are conservatively modelled as failing to
compile — in particular `new RegExp("(", "g")` does throw `SyntaxError`. -/
def literalRegexEngine : RegexEngine :=
  ⟨fun p =>
    if isLiteralPattern p then .ok (fun text => countOccsS p text)
    else .error ("Invalid regular expression: /" ++ p ++ "/g")⟩

/-- Code-block bonus of `performExactAndPartialMatching` (lines 279-293):
per regex-matched block, +4 when the block contains the whole lowered query,
else +2 per query word the block contains. -/
def codeBlockScore (queryLower : String) (queryWords : List String) (content : String) : Nat :=
  ((scanBlocksL content.data).map (fun b =>
    let bl := b.map Char.toLower
    if strIncl bl queryLower.data then 4
    else 2 * (queryWords.filter (fun w => strIncl bl w.data)).length)).sum

/-- Additive per-document score of `performExactAndPartialMatching`
(lines 250-293), parameterised by the occurrence counter that the source
obtains by compiling the raw lowered query (and each query word) with
`new RegExp(·, 'g')`. -/
def scoreDocument (count : String → String → Nat) (query : String) (doc : IndexedDocument) : Nat :=
  let queryLower := lowerS query
  let queryWords := queryWordsOf queryLower
  let titleLower := lowerS doc.title
  let contentLower := lowerS doc.content
  let titleBase :=
    if titleLower == queryLower then 20
    else if includesS titleLower queryLower then 15
    else 0
  let titleWords := 5 * (queryWords.filter (fun w => includesS titleLower w)).length
  let phrase := min (count queryLower contentLower * 3) 15
  let wordScore := (queryWords.map (fun w => min (count w contentLower) 3)).sum
  titleBase + titleWords + phrase + wordScore + codeBlockScore queryLower queryWords doc.content

/-- Modelled from the spec (§4.4): the code-block bonus computed over fenced
code blocks with arbitrary interiors (`specScanBlocksL`). -/
def specCodeBlockScore (queryLower : String) (queryWords : List String) (content : String) : Nat :=
  ((specScanBlocksL content.data).map (fun b =>
    let bl := b.map Char.toLower
    if strIncl bl queryLower.data then 4
    else 2 * (queryWords.filter (fun w => strIncl bl w.data)).length)).sum

/-- Modelled from the spec (§4.4): the additive document score with the
spec's reading of "fenced code blocks" (delimited by triple backticks, any
interior); otherwise identical to `scoreDocument`. -/
def specScoreDocument (count : String → String → Nat) (query : String) (doc : IndexedDocument) :
    Nat :=
  let queryLower := lowerS query
  let queryWords := queryWordsOf queryLower
  let titleLower := lowerS doc.title
  let contentLower := lowerS doc.content
  let titleBase :=
    if titleLower == queryLower then 20
    else if includesS titleLower queryLower then 15
    else 0
  let titleWords := 5 * (queryWords.filter (fun w => includesS titleLower w)).length
  let phrase := min (count queryLower contentLower * 3) 15
  let wordScore := (queryWords.map (fun w => min (count w contentLower) 3)).sum
  titleBase + titleWords + phrase + wordScore + specCodeBlockScore queryLower queryWords doc.content

/-- Fallible per-document scoring as executed by the source: regex
compilation of the lowered query and of each query word may throw. -/
def scoreDocumentE (E : RegexEngine) (query : String) (doc : IndexedDocument) :
    Except String Nat := do
  let queryLower := lowerS query
  let queryWords := queryWordsOf queryLower
  let titleLower := lowerS doc.title
  let contentLower := lowerS doc.content
  let titleBase :=
    if titleLower == queryLower then 20
    else if includesS titleLower queryLower then 15
    else 0
  let titleWords := 5 * (queryWords.filter (fun w => includesS titleLower w)).length
  let qCount ← E.compile queryLower
  let phrase := min (qCount contentLower * 3) 15
  let wCounts ← queryWords.mapM (fun w => (E.compile w).map (fun m => m contentLower))
  let wordScore := (wCounts.map (fun c => min c 3)).sum
  pure (titleBase + titleWords + phrase + wordScore + codeBlockScore queryLower queryWords doc.content)

/-- Scan for the first occurrence of `needle` at or after absolute position
`k`; returns the absolute index or `-1`. -/
def idxAux (needle : List Char) : List Char → Nat → Int
  | [], k => if needle.isEmpty then (k : Int) else -1
  | c :: t, k => if needle.isPrefixOf (c :: t) then (k : Int) else idxAux needle t (k + 1)

/-- Models `hay.indexOf(needle, start)` (start clamped into the string). -/
def jsIndexOfFrom (hay needle : String) (start : Nat) : Int :=
  let s := min start hay.data.length
  idxAux needle.data (hay.data.drop s) s

/-- Models `hay.indexOf(needle)`. -/
def jsIndexOf (hay needle : String) : Int := jsIndexOfFrom hay needle 0

/-- Models `hay.lastIndexOf(needle, fromIndex)`: the greatest match position
that is `≤ fromIndex` (negative `fromIndex` clamps to 0), or `-1`. -/
def jsLastIndexOf (hay needle : String) (fromI : Int) : Int :=
  let lim := (min fromI (hay.data.length : Int)).toNat
  ((List.range (lim + 1)).filter (fun j => needle.data.isPrefixOf (hay.data.drop j))).foldl
    (fun _ j => (j : Int)) (-1)

/-- Models `s.substring(a, b)`: clamps both arguments into the string and
swaps them when out of order. -/
def jsSubstring (s : String) (a b : Int) : String :=
  let n : Int := s.data.length
  let a2 := (max 0 (min a n)).toNat
  let b2 := (max 0 (min b n)).toNat
  String.mk ((s.data.drop (min a2 b2)).take (max a2 b2 - min a2 b2))

/-- Models `s.trim()`. -/
def jsTrim (s : String) : String :=
  String.mk (((s.data.dropWhile Char.isWhitespace).reverse.dropWhile Char.isWhitespace).reverse)

/-- Highlight scan for a non-empty term: wherever the lowercased text has the
lowercased term as a prefix, the original slice is wrapped in `**…**` and the
scan resumes past it; models `excerpt.replace(new RegExp('(' + term + ')', 'gi'),
'**$1**')` for a literal term. -/
def highlightAux (termL : List Char) : List Char → Nat → List Char
  | [], _ => []
  | _ :: t, Nat.succ k => highlightAux termL t k
  | c :: t, 0 =>
    if (termL.map Char.toLower).isPrefixOf ((c :: t).map Char.toLower) then
      '*' :: '*' :: ((c :: t).take termL.length ++ '*' :: '*' :: highlightAux termL t (termL.length - 1))
    else c :: highlightAux termL t 0

/-- The empty term matches once at every position (including the end), so the
replacement inserts `**$1**` = `****` everywhere. -/
def emptyHighlight : List Char → List Char
  | [] => ['*', '*', '*', '*']
  | c :: t => '*' :: '*' :: '*' :: '*' :: c :: emptyHighlight t

/-- One highlighting pass of `extractExcerpt` (lines 385-389). -/
def highlightAll (term : String) (s : String) : String :=
  if term.data.isEmpty then String.mk (emptyHighlight s.data)
  else String.mk (highlightAux term.data s.data 0)

/-- The word-fallback index search of `extractExcerpt` (lines 354-359): the
first word (in order) found in the content gives the index; when none is
found the loop leaves `-1`. -/
def firstWordIndex (contentLower : String) : List String → Int
  | [] => -1
  | w :: rest =>
    let i := jsIndexOf contentLower w
    if i != -1 then i else firstWordIndex contentLower rest

/-- `extractExcerpt` (lines 345-395): locate the query (or a query word),
expand the window to sentence boundaries, highlight matches, add ellipses. -/
def extractExcerpt (content query : String) (maxLength : Nat := 200) : String :=
  let queryLower := lowerS query
  let contentLower := lowerS content
  let queryWords := queryWordsOf queryLower
  let index0 := jsIndexOf contentLower queryLower
  let index :=
    if index0 == -1 && queryWords.length > 0 then firstWordIndex contentLower queryWords
    else index0
  if index == -1 then
    let cleanContent := jsTrim (stripBlocksS content)
    jsSubstring cleanContent 0 (maxLength : Int) ++ "..."
  else
    let start0 : Int := max 0 (index - 100)
    let end0 : Int := min (content.data.length : Int) (index + queryLower.data.length + 100)
    let sentenceStart := jsLastIndexOf content "." start0
    let start1 := if sentenceStart != -1 && sentenceStart > start0 - 50 then sentenceStart + 1 else start0
    let sentenceEnd := jsIndexOfFrom content "." end0.toNat
    let end1 := if sentenceEnd != -1 && sentenceEnd < end0 + 50 then sentenceEnd + 1 else end0
    let excerpt0 := jsTrim (jsSubstring content start1 end1)
    let excerpt1 := (queryLower :: queryWords).foldl (fun e term => highlightAll term e) excerpt0
    let excerpt2 := if start1 > 0 then "..." ++ excerpt1 else excerpt1
    if end1 < (content.data.length : Int) then excerpt2 ++ "..." else excerpt2

/-- `performExactAndPartialMatching` (lines 245-308): score every document,
keeping (in document order) those with strictly positive score; regex
compilation failures abort the whole pass. -/
def performExactAndPartialMatching (E : RegexEngine) (query : String)
    (documents : List IndexedDocument) : Except String (List SearchResult) :=
  documents.foldlM
    (fun acc doc => do
      let n ← scoreDocumentE E query doc
      pure
        (if n > 0 then
          acc ++ [{ path := doc.path, title := doc.title,
                    excerpt := extractExcerpt doc.content query 200,
                    «section» := doc.«section», version := doc.version, score := (n : ℚ) }]
        else acc))
    []

/-- Association-list model of a JavaScript `Map` (and of `NodeCache`):
lookup finds the first (unique) binding for a key. -/
def alLookup {α : Type} : List (String × α) → String → Option α
  | [], _ => none
  | kv :: t, k => if kv.1 = k then some kv.2 else alLookup t k

/-- `Map.prototype.set`: an existing binding is updated in place (insertion
order preserved), a new binding is appended. -/
def alSet {α : Type} (m : List (String × α)) (k : String) (v : α) : List (String × α) :=
  if m.any (fun kv => decide (kv.1 = k)) then m.map (fun kv => if kv.1 = k then (k, v) else kv)
  else m ++ [(k, v)]

/-- One fuzzy hit folded into the result map (`combineSearchResults`,
lines 323-340): the distance-derived score is `(1 - d) * 10`; an existing
entry (same path) is blended with `max(old, old*0.7 + fuzzy*0.3)`, an absent
path is inserted fresh. -/
def mergeFuzzyHit (query : String) (m : List (String × SearchResult))
    (hit : IndexedDocument × Option ℚ) : List (String × SearchResult) :=
  let doc := hit.1
  let fuzzyScore : ℚ := (1 - hit.2.getD 0) * 10
  match alLookup m doc.path with
  | some existing =>
    alSet m doc.path
      { existing with score := max existing.score (existing.score * (7 / 10) + fuzzyScore * (3 / 10)) }
  | none =>
    alSet m doc.path
      { path := doc.path, title := doc.title, excerpt := extractExcerpt doc.content query 200,
        «section» := doc.«section», version := doc.version, score := fuzzyScore }

/-- `combineSearchResults` (lines 310-343): seed a path-keyed map with the
exact/partial results, fold in the fuzzy hits, return the values in
insertion order. -/
def combineSearchResults (fuseResults : List (IndexedDocument × Option ℚ))
    (exactResults : List SearchResult) (query : String) : List SearchResult :=
  let seeded := exactResults.foldl (fun m r => alSet m r.path r) []
  (fuseResults.foldl (mergeFuzzyHit query) seeded).map (fun kv => kv.2)

/-- Stable insertion into a list sorted by non-increasing score: the new
element goes after every element whose score is at least as large. -/
def insertByScore (r : SearchResult) : List SearchResult → List SearchResult
  | [] => [r]
  | x :: xs => if x.score ≤ r.score then r :: x :: xs else x :: insertByScore r xs

/-- `combinedResults.sort((a, b) => b.score - a.score)` (line 211):
JavaScript's sort is stable and this comparator orders by descending score,
which is exactly stable insertion sort with `insertByScore`. -/
def sortByScoreDesc (l : List SearchResult) : List SearchResult := l.foldr insertByScore []

/-- The section/version filter of `searchDocs` (lines 172-180); note
`version === 'latest'` satisfies the version disjunct for every document. -/
def filterDocs (docs : List IndexedDocument) (s v : Option String) : List IndexedDocument :=
  if truthy s || truthy v then
    docs.filter (fun doc =>
      (!truthy s || doc.«section» == s) &&
        (!truthy v || doc.version == v || v == some "latest"))
  else docs

/-- `prepareSearchQuery` (lines 235-243): multi-word queries become a
conjunction of per-word include-match tokens, single-word queries one token. -/
def prepareSearchQuery (query : String) : String :=
  let words := queryWordsOf query
  let tick := String.mk [aposChar]
  if words.length > 1 then String.intercalate " " (words.map (fun w => tick ++ w))
  else tick ++ query

/-- Models `Number.prototype.toFixed(2)` on the (non-negative, rational)
scores: round to the nearest hundredth and print two decimals. -/
def fixed2 (q : ℚ) : String :=
  let scaled : Int := Int.floor (q * 100 + 1 / 2)
  let ip := scaled / 100
  let fp := (scaled % 100).toNat
  toString ip ++ "." ++ (if fp < 10 then "0" else "") ++ toString fp

/-- The rendered search text (lines 214-226).  The source's template
literals write `\\n`, i.e. a literal backslash followed by `n`, which is
reproduced here faithfully. -/
def renderSearchText (query : String) (s v : Option String) (results : List SearchResult) :
    String :=
  let header := "# Search Results for \"" ++ query ++ "\"\\n\\n"
  if results.isEmpty then
    header ++ "No results found in " ++ (if truthy s then s.getD "" else "all sections") ++
      (if truthy v then " (version: " ++ v.getD "" ++ ")" else "") ++ "."
  else
    header ++
      String.join (results.map (fun r =>
        "## " ++ r.title ++ "\\n" ++
          (if truthy r.«section» then "**Section:** " ++ (r.«section»).getD "" ++ "\\n" else "") ++
          (if truthy r.version then "**Version:** " ++ r.version.getD "" ++ "\\n" else "") ++
          "**Match Score:** " ++ fixed2 r.score ++ "\\n" ++
          "\\n" ++ r.excerpt ++ "\\n\\n---\\n\\n"))

/-- The in-memory state left by index construction: the ordered document
collection and whether the fuse index was assigned (`isInitialized`). -/
structure FetcherState where
  documentsIndex : List IndexedDocument
  fuseInitialized : Bool
deriving DecidableEq

/-- `initializeIndex` (lines 60-129): the corpus scan is abstracted by its
outcome.  On success the documents are indexed and the fuse index is built;
any raised error is caught and logged (line 127), leaving the index empty
and the fuse index null (`isInitialized` is never set). -/
def initializeIndex (loadResult : Except String (List IndexedDocument)) : FetcherState :=
  match loadResult with
  | .ok docs => { documentsIndex := docs, fuseInitialized := true }
  | .error _ => { documentsIndex := [], fuseInitialized := false }

/-- The `NodeCache` contents: rendered text by cache key.  Entries live for
the full one-week TTL (`stdTTL: 604800`, line 49); expiry within a run is
not modelled, so every stored entry is an unexpired one. -/
abbrev Cache : Type := List (String × String)

/-- The cache key of `searchDocs` (line 158): plain `_`-joined
interpolation with falsy arguments replaced by sentinels. -/
def searchCacheKey (query : String) (s v : Option String) : String :=
  "search_" ++ query ++ "_" ++ (if truthy s then s.getD "" else "all") ++ "_" ++
    (if truthy v then v.getD "" else "latest")

/-- The ranked top-ten result list computed by `searchDocs` (lines 164-213)
before rendering: guard on the fuse index, filter by section/version, run
the fuzzy search (the external `Fuse` index is a parameter giving
document/distance pairs) and the exact/partial matcher, merge, sort by
descending score, truncate to ten.  Any error raised inside the `try` block
is rethrown as `Search failed: …` (lines 230-232). -/
def searchTopResults (E : RegexEngine)
    (fuse : List IndexedDocument → String → List (IndexedDocument × Option ℚ))
    (st : FetcherState) (query : String) (s v : Option String) :
    Except String (List SearchResult) :=
  if !st.fuseInitialized then .error "Search failed: Search index not initialized"
  else
    let searchableDocuments := filterDocs st.documentsIndex s v
    let searchQuery := prepareSearchQuery query
    let fuseResults := fuse searchableDocuments searchQuery
    match performExactAndPartialMatching E query searchableDocuments with
    | .error m => .error ("Search failed: " ++ m)
    | .ok exactAndPartialResults =>
      .ok ((sortByScoreDesc (combineSearchResults fuseResults exactAndPartialResults query)).take 10)

/-- The rendered text of one uncached `searchDocs` computation. -/
def searchFresh (E : RegexEngine)
    (fuse : List IndexedDocument → String → List (IndexedDocument × Option ℚ))
    (st : FetcherState) (query : String) (s v : Option String) : Except String String :=
  (searchTopResults E fuse st query s v).map (renderSearchText query s v)

/-- `searchDocs` (lines 155-233): serve the cached text when the key is
present, otherwise compute, write through the cache and return. -/
def searchDocs (E : RegexEngine)
    (fuse : List IndexedDocument → String → List (IndexedDocument × Option ℚ))
    (st : FetcherState) (cache : Cache) (query : String) (s v : Option String) :
    Except String (String × Cache) :=
  let key := searchCacheKey query s v
  match alLookup cache key with
  | some cached => .ok (cached, cache)
  | none => (searchFresh E fuse st query s v).map (fun t => (t, alSet cache key t))

/-- A stored corpus file as `getDocContent` sees it after front-matter
parsing: relative path, optional front-matter title and description, body. -/
structure CorpusFile where
  path : String
  title : Option String
  description : Option String
  body : String
deriving DecidableEq

/-- The rendered text of `getDocContent` (lines 411-419): optional title
header, optional description quote, then the body (the source writes the
two-character sequence `\\n` literally). -/
def renderDocContent (f : CorpusFile) : String :=
  (if truthy f.title then "# " ++ f.title.getD "" ++ "\\n\\n" else "") ++
    (if truthy f.description then "> " ++ f.description.getD "" ++ "\\n\\n" else "") ++ f.body

/-- `getDocContent` (lines 397-426) over the stored corpus: serve the cached
render when present, else render the file at the exact relative path and
write through the cache; a missing file is a wrapped read failure. -/
def getDocContent (corpus : List CorpusFile) (cache : Cache) (filePath : String) :
    Except String (String × Cache) :=
  let key := "content_" ++ filePath
  match alLookup cache key with
  | some cached => .ok (cached, cache)
  | none =>
    match corpus.find? (fun f => f.path == filePath) with
    | none => .error "Failed to fetch content: File not found"
    | some f =>
      let t := renderDocContent f
      .ok (t, alSet cache key t)

/-- The glob pattern built by `getDocByPath` (lines 431-434): note the
leading `/` contributed by the path-fragment branch. -/
def buildSearchPath (path version : Option String) : String :=
  (if truthy version && !(version == some "latest") then "**/" ++ version.getD "" else "") ++
    (if truthy path then "/**/*" ++ path.getD "" ++ "*" else "") ++ ".\x7bmd,mdx\x7d"

/-- `getDocByPath` (lines 428-446): glob the built pattern over the stored
relative paths (in directory-traversal order), render the first match,
and fail with `Document not found` when nothing matches; every error is
wrapped as `Failed to find document: …`. -/
def getDocByPath (corpus : List CorpusFile) (cache : Cache) (path version : Option String) :
    Except String (String × Cache) :=
  let pat := buildSearchPath path version
  match (corpus.map (fun f => f.path)).filter (fun p => globMatch pat p) with
  | [] => .error "Failed to find document: Document not found"
  | p :: _ =>
    match getDocContent corpus cache p with
    | .error m => .error ("Failed to find document: " ++ m)
    | .ok r => .ok r

/-- A fuse model returning no fuzzy hits. -/
def fuseNone : List IndexedDocument → String → List (IndexedDocument × Option ℚ) := fun _ _ => []

/-- An initialized fetcher over an empty corpus. -/
def stEmpty : FetcherState := { documentsIndex := [], fuseInitialized := true }

/-- A document whose body is a normal fenced code block containing the query. -/
def c1Doc : IndexedDocument :=
  { path := "guides/code.mdx", title := "t", content := "```\nfoo query bar\n```",
    «section» := none, version := none, description := none }

/-- Exact-title document of the C4 counterexample pair: the query `ss` in the
title, a body of five empty fences (the queries removed from `c4DocB`). -/
def c4DocA : IndexedDocument :=
  { path := "a.mdx", title := "ss", content := "`````` `````` `````` `````` ``````",
    «section» := none, version := none, description := none }

/-- Content-only document of the C4 counterexample pair: the query `ss`
occurs only in the body, inside five fenced code blocks. -/
def c4DocB : IndexedDocument :=
  { path := "b.mdx", title := "", content := "```ss``` ```ss``` ```ss``` ```ss``` ```ss```",
    «section» := none, version := none, description := none }

/-- Exact-title document of the C4 witness pair. -/
def c4WitDocA : IndexedDocument :=
  { path := "wa.mdx", title := "zz", content := "", «section» := none, version := none,
    description := none }

/-- Content-only document of the C4 witness pair. -/
def c4WitDocB : IndexedDocument :=
  { path := "wb.mdx", title := "intro", content := "some zz here", «section» := none,
    version := none, description := none }

/-- The rendered no-result text of `search("a", "b_all", undefined)`. -/
def c7TextA : String := "# Search Results for \"a\"\\n\\nNo results found in b_all."

/-- The rendered no-result text of `search("a_b", undefined, undefined)`. -/
def c7TextB : String := "# Search Results for \"a_b\"\\n\\nNo results found in all sections."

/-- The one-document corpus of the path-resolution scenario. -/
def c3Corpus : List CorpusFile :=
  [{ path := "guides/routing.mdx", title := some "Routing", description := none,
     body := "Expo Router uses file-based routing." }]

/-- A non-empty corpus document for the invalid-regex search scenario. -/
def c10Doc : IndexedDocument :=
  { path := "guides/camera.mdx", title := "Camera", content := "Use the camera module.",
    «section» := some "guides", version := none, description := none }

/-- An existing search-result entry used by the C2 witness. -/
def c2Res0 : SearchResult :=
  { path := "p", title := "T", excerpt := "E", «section» := none, version := none, score := 5 }

/-- The document of the C2 witness blend case. -/
def c2Doc0 : IndexedDocument :=
  { path := "p", title := "T", content := "", «section» := none, version := none,
    description := none }

/-- The document of the C2 witness fresh-insert case. -/
def c2Doc2 : IndexedDocument :=
  { path := "p2", title := "T2", content := "", «section» := none, version := none,
    description := none }

/-- The rendered no-result text of `search("x", undefined, undefined)`. -/
def c7TextX : String := "# Search Results for \"x\"\\n\\nNo results found in all sections."

theorem alLookup_mapReplace {α : Type} (m : List (String × α)) (k : String) (v : α)
    (h : m.any (fun kv => decide (kv.1 = k)) = true) :
    alLookup (m.map (fun kv => if kv.1 = k then (k, v) else kv)) k = some v := by
  induction m with
  | nil => simp at h
  | cons kv t ih =>
    by_cases hk : kv.1 = k
    · simp [alLookup, hk]
    · simp only [List.any_cons] at h
      have hd : decide (kv.1 = k) = false := decide_eq_false hk
      rw [hd, Bool.false_or] at h
      simp [alLookup, hk, ih h]

theorem alLookup_appendNew {α : Type} (m : List (String × α)) (k : String) (v : α)
    (h : m.any (fun kv => decide (kv.1 = k)) = false) :
    alLookup (m ++ [(k, v)]) k = some v := by
  induction m with
  | nil => simp [alLookup]
  | cons kv t ih =>
    simp only [List.any_cons, Bool.or_eq_false_iff] at h
    have h1 : ¬kv.1 = k := by simpa using h.1
    simp only [List.cons_append, alLookup, h1, if_false]
    exact ih h.2

theorem alLookup_alSet_self {α : Type} (m : List (String × α)) (k : String) (v : α) :
    alLookup (alSet m k v) k = some v := by
  unfold alSet
  by_cases h : m.any (fun kv => decide (kv.1 = k)) = true
  · simp only [h, if_true]
    exact alLookup_mapReplace m k v h
  · simp only [h, if_false]
    exact alLookup_appendNew m k v (Bool.eq_false_iff.mpr h)

theorem alLookup_mapReplace_ne {α : Type} (m : List (String × α)) (k k2 : String) (v : α)
    (h : k2 ≠ k) :
    alLookup (m.map (fun kv => if kv.1 = k then (k, v) else kv)) k2 = alLookup m k2 := by
  induction m with
  | nil => simp
  | cons kv t ih =>
    by_cases hk : kv.1 = k
    · have h1 : ¬(k = k2) := fun hh => h hh.symm
      have h2 : ¬(kv.1 = k2) := by rw [hk]; exact h1
      simp [alLookup, hk, h1, h2, ih]
    · simp [alLookup, hk, ih]

theorem alLookup_appendOne_ne {α : Type} (m : List (String × α)) (k k2 : String) (v : α)
    (h : k2 ≠ k) : alLookup (m ++ [(k, v)]) k2 = alLookup m k2 := by
  induction m with
  | nil =>
    have h1 : ¬(k = k2) := fun hh => h hh.symm
    simp [alLookup, h1]
  | cons kv t ih =>
    by_cases hk : kv.1 = k2
    · simp [alLookup, hk]
    · simp [alLookup, hk, ih]

theorem alLookup_alSet_ne {α : Type} (m : List (String × α)) (k k2 : String) (v : α)
    (h : k2 ≠ k) : alLookup (alSet m k v) k2 = alLookup m k2 := by
  unfold alSet
  by_cases hm : m.any (fun kv => decide (kv.1 = k)) = true
  · simp only [hm, if_true]
    exact alLookup_mapReplace_ne m k k2 v h
  · simp only [hm, if_false]
    exact alLookup_appendOne_ne m k k2 v h

/-- C2: a fuzzy hit with distance `d` carries the score `(1 - d) * 10`; when
its path is already in the result map with score `s`, the merged entry's
score becomes `max(s, s*0.7 + (1-d)*10*0.3)` — never strictly below `s` —
and when the path is absent a fresh result with score `(1 - d) * 10` is
inserted. -/
theorem c2_combine_blend (query : String) (m : List (String × SearchResult))
    (doc : IndexedDocument) (d : Option ℚ) :
    (∀ r : SearchResult,
        alLookup m doc.path = some r →
          alLookup (mergeFuzzyHit query m (doc, d)) doc.path =
            some { r with
                     score := max r.score
                       (r.score * (7 / 10) + ((1 - d.getD 0) * 10) * (3 / 10)) } ∧
          r.score ≤ max r.score (r.score * (7 / 10) + ((1 - d.getD 0) * 10) * (3 / 10))) ∧
      (alLookup m doc.path = none →
        alLookup (mergeFuzzyHit query m (doc, d)) doc.path =
          some { path := doc.path, title := doc.title,
                 excerpt := extractExcerpt doc.content query 200, «section» := doc.«section»,
                 version := doc.version, score := (1 - d.getD 0) * 10 }) := by
  constructor
  · intro r hr
    constructor
    · unfold mergeFuzzyHit
      simp only [hr]
      exact alLookup_alSet_self m doc.path _
    · exact le_max_left _ _
  · intro hr
    unfold mergeFuzzyHit
    simp only [hr]
    exact alLookup_alSet_self m doc.path _

/-- Witness for `c2_combine_blend` at concrete inputs: an existing entry of
score 5 merged with a fuzzy hit of distance 1/2, and a fresh insertion for
a fuzzy hit of distance 1/4. -/
theorem c2_combine_blend_witness :
    (alLookup (mergeFuzzyHit "q" [("p", c2Res0)] (c2Doc0, some (1 / 2))) "p" =
        some { c2Res0 with
                 score := max c2Res0.score
                   (c2Res0.score * (7 / 10) + ((1 - ((some (1 / 2 : ℚ)).getD 0)) * 10) * (3 / 10)) }) ∧
      (alLookup (mergeFuzzyHit "q" [] (c2Doc2, some (1 / 4))) "p2" =
        some { path := c2Doc2.path, title := c2Doc2.title,
               excerpt := extractExcerpt c2Doc2.content "q" 200, «section» := c2Doc2.«section»,
               version := c2Doc2.version, score := (1 - ((some (1 / 4 : ℚ)).getD 0)) * 10 }) := by
  constructor
  · exact ((c2_combine_blend "q" [("p", c2Res0)] c2Doc0 (some (1 / 2))).1 c2Res0 rfl).1
  · exact (c2_combine_blend "q" [] c2Doc2 (some (1 / 4))).2 rfl

/-- C9: passing `version = 'latest'` to the search filter imposes no version
constraint — the version disjunct holds for every document — so the filtered
set equals the one filtered by section alone. -/
theorem c9_latest_no_constraint (docs : List IndexedDocument) (s : Option String) :
    filterDocs docs s (some "latest") = filterDocs docs s none ∧
      ∀ doc : IndexedDocument,
        (!truthy (some "latest") || doc.version == some "latest" ||
            (some "latest" : Option String) == some "latest") = true := by
  constructor
  · have hl : truthy (some "latest") = true := rfl
    have hn : truthy none = false := rfl
    unfold filterDocs
    rw [hl, hn, Bool.or_true, Bool.or_false]
    by_cases hs : truthy s = true
    · rw [hs]
      simp only [if_true]
      apply List.filter_congr
      intro doc _
      simp
    · have hs2 : truthy s = false := Bool.eq_false_iff.mpr hs
      rw [hs2]
      simp only [if_true, Bool.false_eq_true, if_false]
      apply List.filter_eq_self.mpr
      intro doc _
      simp
  · intro doc
    simp

/-- C1 (code/spec divergence at a concrete input): for the query `query` and
a document whose body is an ordinary fenced code block containing the query,
the source's scorer awards 4 (+3 phrase, +1 word — its block regex, whose
class `[\\s\\S]` only covers backslash/`s`/`S`, matches no ordinary fence),
while the spec's §4.4 formula awards 8 (+3 phrase, +1 word, +4 block). -/
theorem c1_code_block_divergence :
    scoreDocument countOccsS "query" c1Doc = 4 ∧
      specScoreDocument countOccsS "query" c1Doc = 8 ∧
      (performExactAndPartialMatching literalRegexEngine "query" [c1Doc]).map
          (fun l => l.map (fun r => r.score)) = .ok [(4 : ℚ)] := by
  refine ⟨by decide, by decide, by decide⟩

/-- C3 (code bug at a concrete input): over a corpus containing
`guides/routing.mdx`, `getDocByPath("routing")` builds the pattern
`/**/*routing*.{md,mdx}` whose leading slash makes it absolute, so it
matches no stored relative path and the lookup fails — although the same
pattern without the leading slash does match `guides/routing.mdx`. -/
theorem c3_getDocByPath_bug :
    buildSearchPath (some "routing") none = "/**/*routing*.\x7bmd,mdx\x7d" ∧
      globMatch "/**/*routing*.\x7bmd,mdx\x7d" "guides/routing.mdx" = false ∧
      globMatch "**/*routing*.\x7bmd,mdx\x7d" "guides/routing.mdx" = true ∧
      getDocByPath c3Corpus [] (some "routing") none =
        .error "Failed to find document: Document not found" := by
  refine ⟨by decide, by decide, by decide, by decide⟩

theorem filterDocs_nil (s v : Option String) : filterDocs [] s v = [] := by
  unfold filterDocs
  split <;> rfl

theorem scoreDocumentE_compile_error (E : RegexEngine) (q : String) (doc : IndexedDocument)
    (m : String) (hE : E.compile (lowerS q) = .error m) : scoreDocumentE E q doc = .error m := by
  simp only [scoreDocumentE, hE]
  rfl

theorem performExactAndPartialMatching_error_cons (E : RegexEngine) (q : String)
    (doc : IndexedDocument) (rest : List IndexedDocument) (m : String)
    (h : scoreDocumentE E q doc = .error m) :
    performExactAndPartialMatching E q (doc :: rest) = .error m := by
  simp only [performExactAndPartialMatching, List.foldlM_cons, h]
  rfl

theorem searchTopResults_error (E : RegexEngine)
    (fuse : List IndexedDocument → String → List (IndexedDocument × Option ℚ))
    (st : FetcherState) (q : String) (s v : Option String) (m : String)
    (hinit : st.fuseInitialized = true)
    (hperf : performExactAndPartialMatching E q (filterDocs st.documentsIndex s v) = .error m) :
    searchTopResults E fuse st q s v = .error ("Search failed: " ++ m) := by
  simp only [searchTopResults, hinit, hperf]
  rfl

theorem searchFresh_eq (E : RegexEngine)
    (fuse : List IndexedDocument → String → List (IndexedDocument × Option ℚ))
    (st : FetcherState) (q : String) (s v : Option String) (r : Except String (List SearchResult))
    (h : searchTopResults E fuse st q s v = r) :
    searchFresh E fuse st q s v = r.map (renderSearchText q s v) := by
  simp only [searchFresh, h]

theorem searchDocs_miss (E : RegexEngine)
    (fuse : List IndexedDocument → String → List (IndexedDocument × Option ℚ))
    (st : FetcherState) (cache : Cache) (q : String) (s v : Option String)
    (hc : alLookup cache (searchCacheKey q s v) = none) :
    searchDocs E fuse st cache q s v =
      (searchFresh E fuse st q s v).map (fun t => (t, alSet cache (searchCacheKey q s v) t)) := by
  simp only [searchDocs, hc]

theorem searchDocs_hit (E : RegexEngine)
    (fuse : List IndexedDocument → String → List (IndexedDocument × Option ℚ))
    (st : FetcherState) (cache : Cache) (q : String) (s v : Option String) (t : String)
    (hc : alLookup cache (searchCacheKey q s v) = some t) :
    searchDocs E fuse st cache q s v = .ok (t, cache) := by
  simp only [searchDocs, hc]

/-- C10: the matcher compiles the raw lowered query as a regex, so a query
that is not a valid pattern — such as `(`, whose compilation raises
`SyntaxError` — makes `searchDocs` over any non-empty (uncached) corpus fail
with a `Search failed` error instead of returning results. -/
theorem c10_raw_regex_failure (E : RegexEngine)
    (fuse : List IndexedDocument → String → List (IndexedDocument × Option ℚ))
    (doc : IndexedDocument) (rest : List IndexedDocument) (cache : Cache) (m : String)
    (hE : E.compile (lowerS "(") = .error m)
    (hc : alLookup cache (searchCacheKey "(" none none) = none) :
    searchDocs E fuse { documentsIndex := doc :: rest, fuseInitialized := true } cache "("
        none none = .error ("Search failed: " ++ m) := by
  have h1 : scoreDocumentE E "(" doc = .error m := scoreDocumentE_compile_error E "(" doc m hE
  have h2 : performExactAndPartialMatching E "(" (doc :: rest) = .error m :=
    performExactAndPartialMatching_error_cons E "(" doc rest m h1
  have h3 : searchTopResults E fuse { documentsIndex := doc :: rest, fuseInitialized := true }
      "(" none none = .error ("Search failed: " ++ m) :=
    searchTopResults_error E fuse _ "(" none none m rfl h2
  rw [searchDocs_miss E fuse _ cache "(" none none hc,
    searchFresh_eq E fuse _ "(" none none _ h3]
  rfl

/-- Witness for `c10_raw_regex_failure`: the concrete regex-engine model
rejects `(` and the search over a one-document corpus fails. -/
theorem c10_raw_regex_failure_witness :
    searchDocs literalRegexEngine fuseNone
        { documentsIndex := [c10Doc], fuseInitialized := true } [] "(" none none =
      .error ("Search failed: " ++ "Invalid regular expression: /(/g") :=
  c10_raw_regex_failure literalRegexEngine fuseNone c10Doc [] []
    "Invalid regular expression: /(/g" rfl rfl

/-- C8 counterexample: after a failed index build, a search does not return
a "no results" rendering — it fails with `Search failed: Search index not
initialized`. -/
theorem c8_counterexample :
    searchDocs literalRegexEngine fuseNone
        (initializeIndex (.error "ENOENT: docs-cache scan failed")) [] "camera" none none =
      .error "Search failed: Search index not initialized" := rfl

/-- C8 amended: a failed build is caught, leaving the document index empty
and the fuse index unset; subsequent (uncached) searches then *fail* with
`Search failed: Search index not initialized`, while a successful build over
zero documents is what yields the "no results" rendering. -/
theorem c8_amended_degraded_failure (E : RegexEngine)
    (fuse fz2 : List IndexedDocument → String → List (IndexedDocument × Option ℚ))
    (err : String) (cache : Cache) (q : String) (s v : Option String)
    (hc : alLookup cache (searchCacheKey q s v) = none)
    (hfz : fz2 [] (prepareSearchQuery q) = []) :
    (initializeIndex (.error err)).documentsIndex = [] ∧
      searchDocs E fuse (initializeIndex (.error err)) cache q s v =
        .error "Search failed: Search index not initialized" ∧
      searchDocs E fz2 (initializeIndex (.ok [])) cache q s v =
        .ok (renderSearchText q s v [],
          alSet cache (searchCacheKey q s v) (renderSearchText q s v [])) := by
  refine ⟨rfl, ?_, ?_⟩
  · rw [searchDocs_miss E fuse _ cache q s v hc,
      searchFresh_eq E fuse _ q s v _
        (rfl : searchTopResults E fuse (initializeIndex (.error err)) q s v =
          .error "Search failed: Search index not initialized")]
    rfl
  · have hTop : searchTopResults E fz2 (initializeIndex (.ok [])) q s v = .ok [] := by
      simp only [searchTopResults, initializeIndex, filterDocs_nil, hfz]
      rfl
    rw [searchDocs_miss E fz2 _ cache q s v hc, searchFresh_eq E fz2 _ q s v _ hTop]
    rfl

/-- Witness for `c8_amended_degraded_failure` at concrete inputs. -/
theorem c8_amended_degraded_failure_witness :
    searchDocs literalRegexEngine fuseNone (initializeIndex (.error "scan failed")) [] "push"
        none none = .error "Search failed: Search index not initialized" ∧
      searchDocs literalRegexEngine fuseNone (initializeIndex (.ok [])) [] "push" none none =
        .ok (renderSearchText "push" none none [],
          alSet [] (searchCacheKey "push" none none) (renderSearchText "push" none none [])) :=
  ⟨(c8_amended_degraded_failure literalRegexEngine fuseNone fuseNone "scan failed" [] "push"
      none none rfl rfl).2.1,
    (c8_amended_degraded_failure literalRegexEngine fuseNone fuseNone "scan failed" [] "push"
      none none rfl rfl).2.2⟩

/-- C7 amended: (i) repeating `search(q, s, v)` within the cache TTL returns
byte-identical rendered text; (ii) calls whose *constructed cache keys*
differ never observe each other's cached text — a second call with a fresh
key computes fresh even right after another query was cached.  (Distinct
normalized argument tuples can still collide on one key, see the
counterexample.) -/
theorem c7_amended_cache_by_key :
    (∀ (E : RegexEngine) (fuse : List IndexedDocument → String → List (IndexedDocument × Option ℚ))
        (st : FetcherState) (cache : Cache) (q : String) (s v : Option String) (t : String)
        (c2 : Cache),
        searchDocs E fuse st cache q s v = .ok (t, c2) →
          searchDocs E fuse st c2 q s v = .ok (t, c2)) ∧
      ∀ (E : RegexEngine) (fuse : List IndexedDocument → String → List (IndexedDocument × Option ℚ))
        (st : FetcherState) (cache : Cache) (q1 q2 : String) (s1 v1 s2 v2 : Option String)
        (t : String) (c2 : Cache),
        searchDocs E fuse st cache q1 s1 v1 = .ok (t, c2) →
          searchCacheKey q2 s2 v2 ≠ searchCacheKey q1 s1 v1 →
          alLookup cache (searchCacheKey q2 s2 v2) = none →
          searchDocs E fuse st c2 q2 s2 v2 =
            (searchFresh E fuse st q2 s2 v2).map
              (fun tx => (tx, alSet c2 (searchCacheKey q2 s2 v2) tx)) := by
  constructor
  · intro E fuse st cache q s v t c2 h
    cases hl : alLookup cache (searchCacheKey q s v) with
    | some cached =>
      rw [searchDocs_hit E fuse st cache q s v cached hl] at h
      simp only [Except.ok.injEq, Prod.mk.injEq] at h
      obtain ⟨ht, hc2⟩ := h
      subst ht
      subst hc2
      exact searchDocs_hit E fuse st cache q s v cached hl
    | none =>
      rw [searchDocs_miss E fuse st cache q s v hl] at h
      cases hf : searchFresh E fuse st q s v with
      | error e =>
        rw [hf] at h
        simp [Except.map] at h
      | ok tx =>
        rw [hf] at h
        simp only [Except.map, Except.ok.injEq, Prod.mk.injEq] at h
        obtain ⟨ht, hc2⟩ := h
        subst ht
        subst hc2
        exact searchDocs_hit E fuse st _ q s v tx (alLookup_alSet_self cache _ tx)
  · intro E fuse st cache q1 q2 s1 v1 s2 v2 t c2 h hkey hc2
    cases hl : alLookup cache (searchCacheKey q1 s1 v1) with
    | some cached =>
      rw [searchDocs_hit E fuse st cache q1 s1 v1 cached hl] at h
      simp only [Except.ok.injEq, Prod.mk.injEq] at h
      obtain ⟨ht, hcache⟩ := h
      subst hcache
      exact searchDocs_miss E fuse st _ q2 s2 v2 hc2
    | none =>
      rw [searchDocs_miss E fuse st cache q1 s1 v1 hl] at h
      cases hf : searchFresh E fuse st q1 s1 v1 with
      | error e =>
        rw [hf] at h
        simp [Except.map] at h
      | ok tx =>
        rw [hf] at h
        simp only [Except.map, Except.ok.injEq, Prod.mk.injEq] at h
        obtain ⟨ht, hc2eq⟩ := h
        subst hc2eq
        refine searchDocs_miss E fuse st _ q2 s2 v2 ?_
        rw [alLookup_alSet_ne cache (searchCacheKey q1 s1 v1) (searchCacheKey q2 s2 v2) tx hkey]
        exact hc2

/-- C7 counterexample: the key scheme `search_<q>_<s||all>_<v||latest>` is
ambiguous — `search("a", "b_all")` and `search("a_b")` build the same key
`search_a_b_all_latest`, so the second call is served the first call's
cached text, which differs from its own fresh computation. -/
theorem c7_counterexample :
    searchDocs literalRegexEngine fuseNone stEmpty [] "a" (some "b_all") none =
        .ok (c7TextA, [("search_a_b_all_latest", c7TextA)]) ∧
      searchDocs literalRegexEngine fuseNone stEmpty [("search_a_b_all_latest", c7TextA)]
          "a_b" none none = .ok (c7TextA, [("search_a_b_all_latest", c7TextA)]) ∧
      searchFresh literalRegexEngine fuseNone stEmpty "a_b" none none = .ok c7TextB ∧
      c7TextA ≠ c7TextB := by
  refine ⟨by decide, by decide, by decide, by decide⟩

/-- Witness for `c7_amended_cache_by_key` at concrete inputs: a repeated
cached query returns the identical text, and a key-distinct query right
after a cache write computes fresh. -/
theorem c7_amended_cache_by_key_witness :
    searchDocs literalRegexEngine fuseNone stEmpty [("search_x_all_latest", c7TextX)] "x" none
        none = .ok (c7TextX, [("search_x_all_latest", c7TextX)]) ∧
      searchDocs literalRegexEngine fuseNone stEmpty [("search_x_all_latest", c7TextX)] "y"
          none none =
        (searchFresh literalRegexEngine fuseNone stEmpty "y" none none).map
          (fun tx =>
            (tx, alSet [("search_x_all_latest", c7TextX)] (searchCacheKey "y" none none) tx)) :=
  ⟨c7_amended_cache_by_key.1 literalRegexEngine fuseNone stEmpty
      [("search_x_all_latest", c7TextX)] "x" none none c7TextX
      [("search_x_all_latest", c7TextX)] (by decide),
    c7_amended_cache_by_key.2 literalRegexEngine fuseNone stEmpty [] "x" "y" none none none
      none c7TextX [("search_x_all_latest", c7TextX)] (by decide) (by decide) rfl⟩

theorem insertByScore_perm (r : SearchResult) (l : List SearchResult) :
    (insertByScore r l).Perm (r :: l) := by
  induction l with
  | nil => exact List.Perm.refl _
  | cons x xs ih =>
    unfold insertByScore
    by_cases h : x.score ≤ r.score
    · rw [if_pos h]
    · rw [if_neg h]
      exact List.Perm.trans (List.Perm.cons x ih) (List.Perm.swap r x xs)

theorem sortByScoreDesc_perm (l : List SearchResult) : (sortByScoreDesc l).Perm l := by
  induction l with
  | nil => exact List.Perm.refl _
  | cons a l ih =>
    exact List.Perm.trans (insertByScore_perm a (sortByScoreDesc l)) (List.Perm.cons a ih)

theorem insertByScore_pairwise (r : SearchResult) (l : List SearchResult)
    (h : l.Pairwise (fun a b => b.score ≤ a.score)) :
    (insertByScore r l).Pairwise (fun a b => b.score ≤ a.score) := by
  induction l with
  | nil => simp [insertByScore]
  | cons x xs ih =>
    rw [List.pairwise_cons] at h
    obtain ⟨hx, hxs⟩ := h
    unfold insertByScore
    by_cases hc : x.score ≤ r.score
    · rw [if_pos hc, List.pairwise_cons]
      refine ⟨?_, ?_⟩
      · intro b hb
        rcases List.mem_cons.mp hb with hb | hb
        · subst hb; exact hc
        · exact le_trans (hx b hb) hc
      · rw [List.pairwise_cons]
        exact ⟨hx, hxs⟩
    · rw [if_neg hc, List.pairwise_cons]
      refine ⟨?_, ih hxs⟩
      intro b hb
      rcases List.mem_cons.mp ((insertByScore_perm r xs).mem_iff.mp hb) with hb2 | hb2
      · subst hb2
        exact le_of_lt (lt_of_not_le hc)
      · exact hx b hb2

theorem sortByScoreDesc_pairwise (l : List SearchResult) :
    (sortByScoreDesc l).Pairwise (fun a b => b.score ≤ a.score) := by
  induction l with
  | nil => simp [sortByScoreDesc]
  | cons a l ih => exact insertByScore_pairwise a (sortByScoreDesc l) ih

theorem insertByScore_filter_eq (r : SearchResult) (l : List SearchResult) (s : ℚ) :
    (insertByScore r l).filter (fun x => decide (x.score = s)) =
      (if r.score = s then [r] else []) ++ l.filter (fun x => decide (x.score = s)) := by
  induction l with
  | nil =>
    by_cases hr : r.score = s <;> simp [insertByScore, hr]
  | cons x xs ih =>
    unfold insertByScore
    by_cases hc : x.score ≤ r.score
    · rw [if_pos hc]
      by_cases hr : r.score = s <;> simp [List.filter_cons, hr]
    · rw [if_neg hc]
      have hrx : r.score < x.score := lt_of_not_le hc
      by_cases hx : x.score = s
      · have hrs : ¬r.score = s := by
          intro hr
          rw [hr, hx] at hrx
          exact lt_irrefl s hrx
        simp [List.filter_cons, hx, hrs, ih]
      · simp [List.filter_cons, hx, ih]

theorem sortByScoreDesc_filter_eq (l : List SearchResult) (s : ℚ) :
    (sortByScoreDesc l).filter (fun x => decide (x.score = s)) =
      l.filter (fun x => decide (x.score = s)) := by
  induction l with
  | nil => rfl
  | cons a l ih =>
    have h0 : sortByScoreDesc (a :: l) = insertByScore a (sortByScoreDesc l) := rfl
    rw [h0, insertByScore_filter_eq]
    by_cases ha : a.score = s <;> simp [List.filter_cons, ha, ih]

/-- C5: every successful search produces at most ten results, sorted by
non-increasing score; the list is the 10-truncation of the stable descending
sort of the merged result list, and sorting preserves the relative
(insertion) order within every score class — exact/partial results, in
document order, precede fuzzy-only additions in the merged list by
construction of `combineSearchResults`. -/
theorem c5_ranked_topten (E : RegexEngine)
    (fuse : List IndexedDocument → String → List (IndexedDocument × Option ℚ))
    (st : FetcherState) (q : String) (s v : Option String) (l : List SearchResult)
    (h : searchTopResults E fuse st q s v = .ok l) :
    l.length ≤ 10 ∧ l.Pairwise (fun a b => b.score ≤ a.score) ∧
      ∃ ex : List SearchResult,
        performExactAndPartialMatching E q (filterDocs st.documentsIndex s v) = .ok ex ∧
          l = (sortByScoreDesc (combineSearchResults
            (fuse (filterDocs st.documentsIndex s v) (prepareSearchQuery q)) ex q)).take 10 ∧
          ∀ sc : ℚ,
            (sortByScoreDesc (combineSearchResults
                (fuse (filterDocs st.documentsIndex s v) (prepareSearchQuery q)) ex q)).filter
                (fun r => decide (r.score = sc)) =
              (combineSearchResults
                  (fuse (filterDocs st.documentsIndex s v) (prepareSearchQuery q)) ex q).filter
                (fun r => decide (r.score = sc)) := by
  unfold searchTopResults at h
  by_cases hinit : st.fuseInitialized = true
  · rw [hinit] at h
    simp only [Bool.not_true, Bool.false_eq_true, if_false] at h
    cases hex : performExactAndPartialMatching E q (filterDocs st.documentsIndex s v) with
    | error m =>
      rw [hex] at h
      simp at h
    | ok ex =>
      rw [hex] at h
      simp only [Except.ok.injEq] at h
      subst h
      refine ⟨List.length_take_le 10 _, ?_, ex, rfl, rfl, ?_⟩
      · exact List.Pairwise.sublist (List.take_sublist 10 _) (sortByScoreDesc_pairwise _)
      · intro sc
        exact sortByScoreDesc_filter_eq _ sc
  · rw [Bool.eq_false_iff.mpr hinit] at h
    simp at h

/-- Witness for `c5_ranked_topten` on a concrete (empty-corpus) search. -/
theorem c5_ranked_topten_witness :
    ([] : List SearchResult).length ≤ 10 ∧
      ([] : List SearchResult).Pairwise (fun a b => b.score ≤ a.score) ∧
      ∃ ex : List SearchResult,
        performExactAndPartialMatching literalRegexEngine "alpha"
            (filterDocs stEmpty.documentsIndex none none) = .ok ex ∧
          ([] : List SearchResult) = (sortByScoreDesc (combineSearchResults
            (fuseNone (filterDocs stEmpty.documentsIndex none none)
              (prepareSearchQuery "alpha")) ex "alpha")).take 10 ∧
          ∀ sc : ℚ,
            (sortByScoreDesc (combineSearchResults
                (fuseNone (filterDocs stEmpty.documentsIndex none none)
                  (prepareSearchQuery "alpha")) ex "alpha")).filter
                (fun r => decide (r.score = sc)) =
              (combineSearchResults
                  (fuseNone (filterDocs stEmpty.documentsIndex none none)
                    (prepareSearchQuery "alpha")) ex "alpha").filter
                (fun r => decide (r.score = sc)) :=
  c5_ranked_topten literalRegexEngine fuseNone stEmpty "alpha" none none [] rfl

theorem alLookup_mem {α : Type} (m : List (String × α)) (k : String) (x : α)
    (h : alLookup m k = some x) : (k, x) ∈ m := by
  induction m with
  | nil => simp [alLookup] at h
  | cons kv t ih =>
    unfold alLookup at h
    by_cases hk : kv.1 = k
    · rw [if_pos hk] at h
      rcases kv with ⟨a, b⟩
      simp only at hk
      injection h with h2
      subst hk
      subst h2
      exact List.mem_cons_self _ _
    · rw [if_neg hk] at h
      exact List.mem_cons_of_mem _ (ih h)

theorem alSet_keys_nodup {α : Type} (m : List (String × α)) (k : String) (v : α)
    (h : (m.map Prod.fst).Nodup) : ((alSet m k v).map Prod.fst).Nodup := by
  unfold alSet
  by_cases hm : m.any (fun kv => decide (kv.1 = k)) = true
  · rw [if_pos hm]
    have hkeys : (m.map (fun kv => if kv.1 = k then (k, v) else kv)).map Prod.fst =
        m.map Prod.fst := by
      rw [List.map_map]
      apply List.map_congr_left
      intro kv _
      by_cases hk : kv.1 = k
      · simp [hk]
      · simp [hk]
    rw [hkeys]
    exact h
  · rw [if_neg hm, List.map_append]
    have hk : k ∉ m.map Prod.fst := by
      intro hmem
      apply hm
      rw [List.any_eq_true]
      obtain ⟨kv, hkv, hfst⟩ := List.mem_map.mp hmem
      exact ⟨kv, hkv, by simp [hfst]⟩
    rw [List.nodup_append]
    refine ⟨h, by simp, ?_⟩
    intro a ha hb
    simp only [List.map_cons, List.map_nil, List.mem_singleton] at hb
    subst hb
    exact hk ha

theorem alSet_path_inv (m : List (String × SearchResult)) (k : String) (v : SearchResult)
    (h : ∀ kv ∈ m, (kv.2 : SearchResult).path = kv.1) (hv : v.path = k) :
    ∀ kv ∈ alSet m k v, (kv.2 : SearchResult).path = kv.1 := by
  unfold alSet
  by_cases hm : m.any (fun kv => decide (kv.1 = k)) = true
  · rw [if_pos hm]
    intro kv hkv
    obtain ⟨kv0, hkv0, heq⟩ := List.mem_map.mp hkv
    by_cases hk : kv0.1 = k
    · rw [if_pos hk] at heq
      subst heq
      exact hv
    · rw [if_neg hk] at heq
      subst heq
      exact h kv0 hkv0
  · rw [if_neg hm]
    intro kv hkv
    rcases List.mem_append.mp hkv with h1 | h1
    · exact h kv h1
    · simp only [List.mem_singleton] at h1
      subst h1
      exact hv

theorem seedFold_inv (ex : List SearchResult) :
    ∀ m : List (String × SearchResult),
      (m.map Prod.fst).Nodup → (∀ kv ∈ m, (kv.2 : SearchResult).path = kv.1) →
        (((ex.foldl (fun m r => alSet m r.path r) m).map Prod.fst).Nodup ∧
          ∀ kv ∈ ex.foldl (fun m r => alSet m r.path r) m,
            (kv.2 : SearchResult).path = kv.1) := by
  induction ex with
  | nil => exact fun m h1 h2 => ⟨h1, h2⟩
  | cons r t ih =>
    intro m h1 h2
    exact ih (alSet m r.path r) (alSet_keys_nodup m r.path r h1)
      (alSet_path_inv m r.path r h2 rfl)

theorem mergeFuzzyHit_inv (q : String) (m : List (String × SearchResult))
    (hit : IndexedDocument × Option ℚ) (h1 : (m.map Prod.fst).Nodup)
    (h2 : ∀ kv ∈ m, (kv.2 : SearchResult).path = kv.1) :
    (((mergeFuzzyHit q m hit).map Prod.fst).Nodup ∧
      ∀ kv ∈ mergeFuzzyHit q m hit, (kv.2 : SearchResult).path = kv.1) := by
  cases hl : alLookup m hit.1.path with
  | some existing =>
    have hmem : (hit.1.path, existing) ∈ m := alLookup_mem m hit.1.path existing hl
    have hpath : existing.path = hit.1.path := h2 (hit.1.path, existing) hmem
    have heq : mergeFuzzyHit q m hit =
        alSet m hit.1.path
          { existing with
              score := max existing.score
                (existing.score * (7 / 10) + ((1 - hit.2.getD 0) * 10) * (3 / 10)) } := by
      simp only [mergeFuzzyHit, hl]
    rw [heq]
    exact ⟨alSet_keys_nodup m hit.1.path _ h1, alSet_path_inv m hit.1.path _ h2 hpath⟩
  | none =>
    have heq : mergeFuzzyHit q m hit =
        alSet m hit.1.path
          { path := hit.1.path, title := hit.1.title,
            excerpt := extractExcerpt hit.1.content q 200, «section» := hit.1.«section»,
            version := hit.1.version, score := (1 - hit.2.getD 0) * 10 } := by
      simp only [mergeFuzzyHit, hl]
    rw [heq]
    exact ⟨alSet_keys_nodup m hit.1.path _ h1, alSet_path_inv m hit.1.path _ h2 rfl⟩

theorem fuzzyFold_inv (q : String) (fz : List (IndexedDocument × Option ℚ)) :
    ∀ m : List (String × SearchResult),
      (m.map Prod.fst).Nodup → (∀ kv ∈ m, (kv.2 : SearchResult).path = kv.1) →
        (((fz.foldl (mergeFuzzyHit q) m).map Prod.fst).Nodup ∧
          ∀ kv ∈ fz.foldl (mergeFuzzyHit q) m, (kv.2 : SearchResult).path = kv.1) := by
  induction fz with
  | nil => exact fun m h1 h2 => ⟨h1, h2⟩
  | cons hit t ih =>
    intro m h1 h2
    obtain ⟨g1, g2⟩ := mergeFuzzyHit_inv q m hit h1 h2
    exact ih (mergeFuzzyHit q m hit) g1 g2

theorem combineSearchResults_paths_nodup (fz : List (IndexedDocument × Option ℚ))
    (ex : List SearchResult) (q : String) :
    ((combineSearchResults fz ex q).map (fun r => r.path)).Nodup := by
  unfold combineSearchResults
  obtain ⟨s1, s2⟩ := seedFold_inv ex [] (by simp) (by simp)
  obtain ⟨g1, g2⟩ := fuzzyFold_inv q fz _ s1 s2
  rw [List.map_map]
  have : ((fz.foldl (mergeFuzzyHit q) (ex.foldl (fun m r => alSet m r.path r) [])).map
      (fun kv => (kv.2 : SearchResult).path)) =
      (fz.foldl (mergeFuzzyHit q) (ex.foldl (fun m r => alSet m r.path r) [])).map Prod.fst := by
    apply List.map_congr_left
    intro kv hkv
    exact g2 kv hkv
  rw [show ((fun r : SearchResult => r.path) ∘ fun kv : String × SearchResult => kv.2) =
      fun kv : String × SearchResult => (kv.2 : SearchResult).path from rfl, this]
  exact g1

/-- C6: the paths of the results of one successful search are pairwise
distinct — the merged result map holds at most one `SearchResult` per path,
and sorting/truncation preserve that. -/
theorem c6_paths_pairwise_distinct (E : RegexEngine)
    (fuse : List IndexedDocument → String → List (IndexedDocument × Option ℚ))
    (st : FetcherState) (q : String) (s v : Option String) (l : List SearchResult)
    (h : searchTopResults E fuse st q s v = .ok l) :
    (l.map (fun r => r.path)).Nodup := by
  unfold searchTopResults at h
  by_cases hinit : st.fuseInitialized = true
  · rw [hinit] at h
    simp only [Bool.not_true, Bool.false_eq_true, if_false] at h
    cases hex : performExactAndPartialMatching E q (filterDocs st.documentsIndex s v) with
    | error m =>
      rw [hex] at h
      simp at h
    | ok ex =>
      rw [hex] at h
      simp only [Except.ok.injEq] at h
      subst h
      rw [List.map_take]
      apply List.Nodup.sublist (List.take_sublist 10 _)
      have hperm := (sortByScoreDesc_perm (combineSearchResults
        (fuse (filterDocs st.documentsIndex s v) (prepareSearchQuery q)) ex q)).map
        (fun r => r.path)
      exact (List.Perm.nodup_iff hperm).mpr
        (combineSearchResults_paths_nodup
          (fuse (filterDocs st.documentsIndex s v) (prepareSearchQuery q)) ex q)
  · rw [Bool.eq_false_iff.mpr hinit] at h
    simp at h

/-- Witness for `c6_paths_pairwise_distinct` on a concrete search. -/
theorem c6_paths_pairwise_distinct_witness :
    (([] : List SearchResult).map (fun r => r.path)).Nodup :=
  c6_paths_pairwise_distinct literalRegexEngine fuseNone stEmpty "beta" none none [] rfl

theorem strIncl_nil (needle : List Char) : strIncl [] needle = (needle.isPrefixOf [] || false) :=
  rfl

theorem strIncl_cons (c : Char) (t needle : List Char) :
    strIncl (c :: t) needle = (needle.isPrefixOf (c :: t) || strIncl t needle) := rfl

theorem strIncl_true_iff (hay needle : List Char) :
    strIncl hay needle = true ↔ needle <:+: hay := by
  induction hay with
  | nil =>
    rw [strIncl_nil, Bool.or_false]
    simp [List.isPrefixOf_iff_prefix]
  | cons c t ih =>
    rw [strIncl_cons, List.infix_cons_iff]
    constructor
    · intro h
      cases hp : needle.isPrefixOf (c :: t) with
      | true => exact Or.inl (List.isPrefixOf_iff_prefix.mp hp)
      | false =>
        rw [hp, Bool.false_or] at h
        exact Or.inr (ih.mp h)
    · intro h
      rcases h with h1 | h1
      · rw [List.isPrefixOf_iff_prefix.mpr h1, Bool.true_or]
      · rw [ih.mpr h1, Bool.or_true]

theorem countOccsAux_zero (needle : List Char) :
    ∀ hay : List Char, strIncl hay needle = false → countOccsAux needle hay 0 = 0 := by
  intro hay
  induction hay with
  | nil => intro _; rfl
  | cons c t ih =>
    intro h
    rw [strIncl_cons] at h
    obtain ⟨h1, h2⟩ := Bool.or_eq_false_iff.mp h
    rw [show countOccsAux needle (c :: t) 0 =
        (if needle.isPrefixOf (c :: t) then 1 + countOccsAux needle t (needle.length - 1)
          else countOccsAux needle t 0) from rfl]
    simp [h1, ih h2]

theorem countOccsL_zero (needle hay : List Char) (h : strIncl hay needle = false) :
    countOccsL needle hay = 0 := by
  unfold countOccsL
  cases hn : needle.isEmpty with
  | true =>
    exfalso
    have hne : needle = [] := List.isEmpty_iff.mp hn
    subst hne
    have ht : strIncl hay [] = true := (strIncl_true_iff hay []).mpr List.nil_infix
    rw [ht] at h
    cases h
  | false =>
    simp only [Bool.false_eq_true, if_false]
    exact countOccsAux_zero needle hay h

theorem wordsAux_mem_within :
    ∀ (l cur w : List Char), w ∈ wordsAux cur l → w <:+: (cur.reverse ++ l) := by
  intro l
  induction l with
  | nil =>
    intro cur w hw
    unfold wordsAux at hw
    by_cases hc : cur.isEmpty = true
    · rw [if_pos hc] at hw
      simp at hw
    · rw [if_neg hc] at hw
      simp only [List.mem_singleton] at hw
      subst hw
      rw [List.append_nil]
  | cons c t ih =>
    intro cur w hw
    unfold wordsAux at hw
    by_cases hb : c.isWhitespace = true
    · rw [if_pos hb] at hw
      have htail : ∀ w2 : List Char, w2 ∈ wordsAux [] t → w2 <:+: (cur.reverse ++ c :: t) := by
        intro w2 hw2
        have h1 := ih [] w2 hw2
        simp only [List.reverse_nil, List.nil_append] at h1
        exact h1.trans ((List.suffix_cons c t).trans (List.suffix_append _ _)).isInfix
      by_cases hc : cur.isEmpty = true
      · rw [if_pos hc] at hw
        exact htail w hw
      · rw [if_neg hc] at hw
        rcases List.mem_cons.mp hw with hw1 | hw1
        · subst hw1
          exact (List.prefix_append _ _).isInfix
        · exact htail w hw1
    · rw [if_neg hb] at hw
      have h1 := ih (c :: cur) w hw
      rw [List.reverse_cons, List.append_assoc, List.singleton_append] at h1
      exact h1

theorem queryWordsOf_within (s w : String) (hw : w ∈ queryWordsOf s) : w.data <:+: s.data := by
  unfold queryWordsOf at hw
  obtain ⟨wl, hwl, heq⟩ := List.mem_map.mp hw
  have hwl2 := (List.mem_filter.mp hwl).1
  have h1 := wordsAux_mem_within s.data [] wl hwl2
  simp only [List.reverse_nil, List.nil_append] at h1
  rw [← heq]
  exact h1

theorem blockAt_front (l b : List Char) (h : blockAt l = some b) : b <+: l := by
  simp only [blockAt] at h
  split_ifs at h with h1 h2
  injection h with hb
  subst hb
  have hp1 : bt3 ++ l.drop 3 = l := by
    have := List.prefix_iff_eq_append.mp (List.isPrefixOf_iff_prefix.mp h1)
    simpa using this
  have hp2 : (l.drop 3).takeWhile blockClassChar ++
      (l.drop 3).drop ((l.drop 3).takeWhile blockClassChar).length = l.drop 3 :=
    List.prefix_iff_eq_append.mp (List.takeWhile_prefix _)
  have hp3 : bt3 ++ ((l.drop 3).drop ((l.drop 3).takeWhile blockClassChar).length).drop 3 =
      (l.drop 3).drop ((l.drop 3).takeWhile blockClassChar).length := by
    have := List.prefix_iff_eq_append.mp (List.isPrefixOf_iff_prefix.mp h2)
    simpa using this
  refine ⟨((l.drop 3).drop ((l.drop 3).takeWhile blockClassChar).length).drop 3, ?_⟩
  rw [List.append_assoc, List.append_assoc, hp3, hp2, hp1]

theorem scanBlocksAux_within :
    ∀ (l : List Char) (k : Nat) (b : List Char), b ∈ scanBlocksAux l k → b <:+: l := by
  intro l
  induction l with
  | nil =>
    intro k b hb
    simp [scanBlocksAux] at hb
  | cons c t ih =>
    intro k b hb
    cases k with
    | succ k2 =>
      exact List.infix_cons (ih k2 b hb)
    | zero =>
      cases hbl : blockAt (c :: t) with
      | some blk =>
        have heq : scanBlocksAux (c :: t) 0 = blk :: scanBlocksAux t (blk.length - 1) := by
          rw [show scanBlocksAux (c :: t) 0 =
              (match blockAt (c :: t) with
                | some b2 => b2 :: scanBlocksAux t (b2.length - 1)
                | none => scanBlocksAux t 0) from rfl, hbl]
        rw [heq] at hb
        rcases List.mem_cons.mp hb with hb1 | hb1
        · subst hb1
          exact (blockAt_front _ _ hbl).isInfix
        · exact List.infix_cons (ih _ _ hb1)
      | none =>
        have heq : scanBlocksAux (c :: t) 0 = scanBlocksAux t 0 := by
          rw [show scanBlocksAux (c :: t) 0 =
              (match blockAt (c :: t) with
                | some b2 => b2 :: scanBlocksAux t (b2.length - 1)
                | none => scanBlocksAux t 0) from rfl, hbl]
        rw [heq] at hb
        exact List.infix_cons (ih 0 b hb)

theorem mapSum_le (L : List String) (f : String → Nat) (c : Nat) (h : ∀ x ∈ L, f x ≤ c) :
    (L.map f).sum ≤ c * L.length := by
  induction L with
  | nil => simp
  | cons a t ih =>
    simp only [List.map_cons, List.sum_cons, List.length_cons]
    have h2 := ih (fun x hx => h x (List.mem_cons_of_mem a hx))
    have ha := h a (List.mem_cons_self a t)
    calc f a + (t.map f).sum ≤ c + c * t.length := Nat.add_le_add ha h2
      _ = c * (t.length + 1) := by ring

/-- C4 amended: an exact-title-match document scores strictly higher than a
content-only document, provided the content-only document's fenced-code-block
bonus stays within `4 + 2·(number of query words)` (one block containing the
query, no further block word-bonus) — without that bound, stacked code-block
bonuses can overtake the title score (see the counterexample). -/
theorem c4_amended_title_beats_content (q : String) (docA docB : IndexedDocument)
    (hA : lowerS docA.title = lowerS q)
    (hB1 : includesS (lowerS docB.title) (lowerS q) = false)
    (hB2 : ∀ w ∈ queryWordsOf (lowerS q), includesS (lowerS docB.title) w = false)
    (hB3 : includesS (lowerS docB.content) (lowerS q) = true)
    (hBlk : codeBlockScore (lowerS q) (queryWordsOf (lowerS q)) docB.content ≤
        4 + 2 * (queryWordsOf (lowerS q)).length) :
    scoreDocument countOccsS q docB < scoreDocument countOccsS q docA := by
  have hA_base : ((lowerS docA.title) == (lowerS q)) = true := beq_iff_eq.mpr hA
  have hA_words : (queryWordsOf (lowerS q)).filter
      (fun w => includesS (lowerS docA.title) w) = queryWordsOf (lowerS q) := by
    apply List.filter_eq_self.mpr
    intro w hw
    show strIncl (lowerS docA.title).data w.data = true
    rw [hA]
    exact (strIncl_true_iff _ _).mpr (queryWordsOf_within (lowerS q) w hw)
  have hA_ge : 20 + 5 * (queryWordsOf (lowerS q)).length ≤ scoreDocument countOccsS q docA := by
    simp only [scoreDocument, hA_base, hA_words, eq_self_iff_true, if_true]
    omega
  have hB_ne : ((lowerS docB.title) == (lowerS q)) = false := by
    cases hbe : ((lowerS docB.title) == (lowerS q)) with
    | false => rfl
    | true =>
      exfalso
      have heq : lowerS docB.title = lowerS q := beq_iff_eq.mp hbe
      rw [heq] at hB1
      have hself : strIncl (lowerS q).data (lowerS q).data = true :=
        (strIncl_true_iff _ _).mpr (List.infix_refl _)
      rw [show includesS (lowerS q) (lowerS q) =
          strIncl (lowerS q).data (lowerS q).data from rfl, hself] at hB1
      cases hB1
  have hB_words : (queryWordsOf (lowerS q)).filter
      (fun w => includesS (lowerS docB.title) w) = [] := by
    apply List.filter_eq_nil_iff.mpr
    intro w hw
    simp [hB2 w hw]
  have hB_word_sum : ((queryWordsOf (lowerS q)).map
      (fun w => min (countOccsS w (lowerS docB.content)) 3)).sum ≤
      3 * (queryWordsOf (lowerS q)).length :=
    mapSum_le _ _ 3 (fun x _ => min_le_right _ 3)
  have hB_le : scoreDocument countOccsS q docB ≤
      19 + 5 * (queryWordsOf (lowerS q)).length := by
    simp only [scoreDocument, hB_ne, hB_words, Bool.false_eq_true, if_false, List.length_nil]
    have h15 : min (countOccsS (lowerS q) (lowerS docB.content) * 3) 15 ≤ 15 :=
      min_le_right _ _
    rw [show includesS (lowerS docB.title) (lowerS q) = false from hB1]
    simp only [Bool.false_eq_true, if_false]
    omega
  omega

/-- C4 counterexample: for the query `ss`, the pair below differs only in
where the query occurs — exactly as `c4DocA`'s title versus only inside
`c4DocB`'s body (five fenced code blocks) — yet the content-only document
outscores the exact-title one, 38 against 25. -/
theorem c4_counterexample :
    lowerS c4DocA.title = lowerS "ss" ∧
      includesS (lowerS c4DocA.content) (lowerS "ss") = false ∧
      includesS (lowerS c4DocB.title) (lowerS "ss") = false ∧
      includesS (lowerS c4DocB.content) (lowerS "ss") = true ∧
      scoreDocument countOccsS "ss" c4DocA = 25 ∧
      scoreDocument countOccsS "ss" c4DocB = 38 ∧
      ¬scoreDocument countOccsS "ss" c4DocB < scoreDocument countOccsS "ss" c4DocA := by
  refine ⟨by decide, by decide, by decide, by decide, by decide, by decide, by decide⟩

/-- Witness for `c4_amended_title_beats_content` at a concrete pair. -/
theorem c4_amended_title_beats_content_witness :
    scoreDocument countOccsS "zz" c4WitDocB < scoreDocument countOccsS "zz" c4WitDocA :=
  c4_amended_title_beats_content "zz" c4WitDocA c4WitDocB (by decide) (by decide) (by decide)
    (by decide) (by decide)
